import Mathlib

/-!
Verification of `scrape.py`, a single-file scraper for the SJSU people
directory.  The script fetches an index page, collects profile links,
and for each profile page extracts name / email / phone / education with
BeautifulSoup + regex heuristics, writing one CSV row per profile.

The embedding below models:
  * HTML documents as rose trees of element and text nodes
    (BeautifulSoup parse trees); a document is the list of top-level
    nodes, and "document order" is preorder traversal, exactly the
    `next_element` chain of BeautifulSoup.
  * The relevant BeautifulSoup operations, with their actual semantics:
      - `soup(name)` / `soup.find(name, string=...)` search all
        descendants in preorder and match tags only;
      - `soup.find(string=regex)` matches text nodes only, using
        `regex.search` on the node text;
      - `tag.find_next()` with no arguments matches the next *tag* in
        preorder (descendants included); with no name/attrs/string a
        `SoupStrainer` matches every tag but matches a text node only
        when the node equals the empty string, which never occurs, so
        text nodes are skipped; `find_next` returns `None` (modelled as
        an error, since the script then dereferences it) when no tag
        follows;
      - `Tag.string` is the single text child, looked up recursively
        through single-child tags.
  * The three `re` patterns of the script as dedicated matchers with
    Python's leftmost / greedy-with-backtracking semantics (derivations
    in the respective doc comments).
  * Network I/O as an explicit oracle `read_url : String → Option Doc`
    (`None` models the caught `URLError`, after which `read_url` in the
    script returns `None`).
  * Raised Python exceptions as `Except String` errors.
-/

/-- Python ASCII whitespace, the characters matched by `\s` and stripped
by `str.strip()` on ASCII text: space and `\t`, `\n`, `\v`, `\f`, `\r`
(code points 9–13 and 32). -/
def isPySpace (c : Char) : Bool :=
  decide (c.toNat = 32 ∨ (9 ≤ c.toNat ∧ c.toNat ≤ 13))

/-- Python `str.strip()`: drop leading and trailing whitespace. -/
def pyStrip (s : String) : String :=
  String.mk (((s.toList.dropWhile isPySpace).reverse.dropWhile isPySpace).reverse)

/-- ASCII lower-casing, as applied by `re.IGNORECASE` on the script's
ASCII-only patterns. -/
def pyLower (s : String) : String :=
  String.mk (s.toList.map Char.toLower)

/-- Python `str.split(sep)` for a one-character separator: split at every
occurrence, keeping empty pieces (`"a,,b".split(',') == ['a','','b']`,
`"".split(',') == ['']`). -/
def splitOnChar (c : Char) : List Char → List (List Char)
  | [] => [[]]
  | x :: rest =>
    if x = c then [] :: splitOnChar c rest
    else
      match splitOnChar c rest with
      | [] => [[x]]
      | p :: ps => (x :: p) :: ps

/-- Python `str.split(',')` on strings. -/
def pySplitComma (s : String) : List String :=
  (splitOnChar ',' s.toList).map String.mk

/-- Maximal runs of non-whitespace characters.  This is both Python
`str.split()` (whitespace split, no empty pieces) and the set of
candidate blocks for a regex built from `\S+` pieces. -/
def wsTokensAux : List Char → List Char → List (List Char)
  | [], acc => if acc.isEmpty then [] else [acc.reverse]
  | x :: rest, acc =>
    if isPySpace x then
      if acc.isEmpty then wsTokensAux rest [] else acc.reverse :: wsTokensAux rest []
    else wsTokensAux rest (x :: acc)

/-- Python `str.split()` on strings. -/
def pyWSTokens (s : String) : List String :=
  (wsTokensAux s.toList []).map String.mk

/-- Python `str.strip(",")`: drop *leading and trailing* commas. -/
def pyStripCommas (s : String) : String :=
  String.mk (((s.toList.dropWhile (· = ',')).reverse.dropWhile (· = ',')).reverse)

/-- Replace every occurrence of one character by another; the script's
`str.replace(",", "-")` and `str.replace("\n", " ")`. -/
def replaceChar (a b : Char) (s : String) : String :=
  String.mk (s.toList.map (fun c => if c = a then b else c))

/-- Last index at which `c` occurs in `cs`, Python `str.rfind` (minus the
`-1` convention, recovered at the call site). -/
def lastIdxOf (c : Char) (cs : List Char) : Option Nat :=
  ((List.range cs.length).filter (fun i => cs.getD i ' ' = c)).getLast?

/-- The extension component of `os.path.splitext(p)[1]` (posix rules):
the suffix from the last `.` provided it lies after the last `/` and the
basename has a non-dot character before it (so `.bashrc` has no
extension). -/
def splitextExt (p : String) : String :=
  let cs := p.toList
  let sepIdx : Int := match lastIdxOf '/' cs with | Option.none => -1 | some i => (i : Int)
  let dotIdx : Int := match lastIdxOf '.' cs with | Option.none => -1 | some i => (i : Int)
  if dotIdx > sepIdx ∧
      ((List.range cs.length).any fun k =>
        decide (sepIdx < (k : Int) ∧ (k : Int) < dotIdx) && (cs.getD k '.' != '.')) then
    String.mk (cs.drop dotIdx.toNat)
  else ""

/-- A node of a BeautifulSoup parse tree: an element (tag) with
attributes and children, or a text node (`NavigableString`). -/
inductive Node where
  | text (s : String)
  | elem (tag : String) (attrs : List (String × String)) (children : List Node)

/-- A parsed document: the list of top-level nodes of the soup. -/
abbrev Doc := List Node

mutual
/-- Tag/text test, `isinstance(n, Tag)`. -/
def getTextN : Node → String
  | .text s => s
  | .elem _ _ cs => getTextL cs
/-- `get_text()` of a list of nodes: concatenation of all descendant
text in document order, no separator. -/
def getTextL : List Node → String
  | [] => ""
  | n :: rest => getTextN n ++ getTextL rest
end

mutual
/-- Preorder (document-order) flattening of a tree: each element node is
followed by its flattened children — the `next_element` order of
BeautifulSoup. -/
def flattenN : Node → List Node
  | .text s => [.text s]
  | .elem t a cs => .elem t a cs :: flattenL cs
/-- Preorder flattening of a forest. -/
def flattenL : List Node → List Node
  | [] => []
  | n :: rest => flattenN n ++ flattenL rest
end

/-- Whether a node is an element (a `Tag`). -/
def isElem : Node → Bool
  | .elem .. => true
  | .text _ => false

/-- The tag name of a node, `None` for text nodes. -/
def tagOf : Node → Option String
  | .elem t _ _ => some t
  | .text _ => Option.none

/-- Attribute lookup, `tag.get(a)`. -/
def getAttr (a : String) : Node → Option String
  | .elem _ attrs _ => (attrs.find? (fun kv => kv.1 == a)).map (·.2)
  | .text _ => Option.none

/-- BeautifulSoup `Tag.string`: the node's single text child, recursing
through a single element child; `None` unless there is exactly one
child. -/
def tagString : Node → Option String
  | .text _ => Option.none
  | .elem _ _ [.text s] => some s
  | .elem _ _ [.elem t a cs] => tagString (.elem t a cs)
  | .elem _ _ _ => Option.none

/-- Index of the first node satisfying `p`. -/
def findIdxAux (p : Node → Bool) : List Node → Option Nat
  | [] => Option.none
  | n :: rest => if p n then some 0 else (findIdxAux p rest).map (· + 1)

/-- First index `≥ i` in `l` whose node satisfies `p`; the engine behind
`find` / `find_next` on the flattened document. -/
def findIdxFrom (p : Node → Bool) (l : List Node) (i : Nat) : Option Nat :=
  (findIdxAux p (l.drop i)).map (· + i)

/-! ## The three `re` patterns of the script -/

/-- Whether one whitespace-free block matches `\S+@\S+\.\S+`: Python's
`re.search` on this pattern matches inside a maximal non-whitespace run
`b` exactly when `b` has an `@` at some index `p ≥ 1` and a `.` at some
index `q` with `p + 2 ≤ q ≤ len b - 2` (each `\S+` needs one character,
and `\S` cannot cross whitespace). -/
def emailBlockOk (b : String) : Bool :=
  let cs := b.toList
  (List.range cs.length).any fun p =>
    decide (1 ≤ p) && (cs.getD p ' ' == '@') &&
      ((List.range cs.length).any fun q =>
        decide (p + 2 ≤ q ∧ q + 2 ≤ cs.length) && (cs.getD q ' ' == '.'))

/-- `re.search(r'\S+@\S+\.\S+', s)`: the leftmost match.  Because every
`\S+` is greedy and the final `\S+` extends to the end of its block, the
matched substring (`group(0)`) is always the *entire* first
matching whitespace-free block: the leading `\S+` starts at the block
start (leftmost start of any match) and the trailing `\S+` runs to the
block end. -/
def emailFirstBlock (s : String) : Option String :=
  (pyWSTokens s).find? emailBlockOk

/-- One bounded piece of a regex: an optional single character
satisfying a class, or an exact count of `\d` digits. -/
inductive RItem where
  | optc (p : Char → Bool)
  | digits (n : Nat)

/-- Greedy matching with backtracking of a sequence of bounded pieces at
the start of the input, returning the matched prefix.  An optional piece
prefers to consume its character (Python `?` is greedy) and falls back
to skipping it when the remainder of the pattern fails. -/
def matchItems : List RItem → List Char → Option (List Char)
  | [], _ => some []
  | .digits n :: rest, cs =>
    let ds := cs.take n
    if ds.length = n ∧ ds.all Char.isDigit then
      (matchItems rest (cs.drop n)).map (ds ++ ·)
    else Option.none
  | .optc _ :: rest, [] => matchItems rest []
  | .optc p :: rest, c :: cs2 =>
    if p c then
      match matchItems rest cs2 with
      | some m => some (c :: m)
      | Option.none => matchItems rest (c :: cs2)
    else matchItems rest (c :: cs2)

/-- Leftmost search of a bounded-piece pattern: try each start position
from the left, `re.search` semantics. -/
def searchItems (items : List RItem) : List Char → Option String
  | [] =>
    match matchItems items [] with
    | some m => some (String.mk m)
    | Option.none => Option.none
  | c :: rest =>
    match matchItems items (c :: rest) with
    | some m => some (String.mk m)
    | Option.none => searchItems items rest

/-- The character class `[ -.]` of the script's phone pattern.  The `-`
stands between two characters, so this is the ASCII *range* from space
(32) to `.` (46): space, `!"#$%&'()*+,-.` — not just space, hyphen and
dot. -/
def phoneSepRange (c : Char) : Bool :=
  decide (32 ≤ c.toNat ∧ c.toNat ≤ 46)

/-- The script's phone pattern
`\(?\d{3}\)?[ -.]?\/?\d{3}[ ]?[ -.]?[ ]?\d{4}` as a sequence of bounded
pieces. -/
def phoneItems : List RItem :=
  [ .optc (· == '('), .digits 3, .optc (· == ')'), .optc phoneSepRange,
    .optc (· == '/'), .digits 3, .optc (· == ' '), .optc phoneSepRange,
    .optc (· == ' '), .digits 4 ]

/-- The three phone labels of the script's pattern
`(^phone$|^telephone$|^telephone:$)`. -/
def phoneLabels : List String := ["phone", "telephone", "telephone:"]

/-- `re.search(r'(^phone$|^telephone$|^telephone:$)', s, re.IGNORECASE)`
as a test: with no `re.MULTILINE`, `^` anchors at the start and `$` at
the end *or just before a final newline*, so the node text must equal a
label, or a label followed by one final `"\n"`, case-insensitively. -/
def labelMatch (s : String) : Bool :=
  let t := pyLower s
  phoneLabels.contains t ||
    ((t.toList.getLastD ' ' == '\n') && phoneLabels.contains (String.mk t.toList.dropLast))

/-! ## The extractors -/

deriving instance DecidableEq for Except

/-- Result of `extract_name`: a Python 2-tuple `(last, first)` (truthy),
the empty string returned when the page has no `h1` (falsy), or the
implicit `None` of the fall-through cases (falsy). -/
inductive NameRes where
  | pair (last first : String)
  | emptyStr
  | none
deriving DecidableEq

/-- Whether the Python value modelled by a `NameRes` is truthy — a
nonempty tuple is always truthy, `""` and `None` are falsy. -/
def nameTruthy : NameRes → Bool
  | .pair _ _ => true
  | _ => false

/-- `extract_name(soup)` (scrape.py lines 52–67): take the first `h1`
of the document, strip its text; if it contains a comma return
`(split(',')[0], split(',')[1])`; else if it splits into more than one
whitespace token return `(split()[-1], split()[0])`; else fall through
to `None`.  When there is no `h1` at all, return `""`. -/
def extract_name (doc : Doc) : NameRes :=
  match (flattenL doc).filter (fun n => tagOf n == some "h1") with
  | [] => .emptyStr
  | h :: _ =>
    let name := pyStrip (getTextN h)
    if name.toList.any (· == ',') then
      .pair ((pySplitComma name).getD 0 "") ((pySplitComma name).getD 1 "")
    else if 1 < (pyWSTokens name).length then
      .pair ((pyWSTokens name).getLastD "") ((pyWSTokens name).getD 0 "")
    else .none

/-- The predicate with which `extract_email` picks its text node:
`soup.find(string=re.compile(r'\S+@\S+\.\S+'))` matches text nodes
whose content has a match of the pattern. -/
def emailNodeP : Node → Bool
  | .text s => (emailFirstBlock s).isSome
  | .elem .. => false

/-- `extract_email(soup)` (scrape.py lines 70–87): find the first text
node matching the email-shaped pattern, re-run the search on that node,
and return `group(0).strip(",")` — note Python `strip(",")` removes the
commas from *both* ends.  Empty string when no node matches. -/
def extract_email (doc : Doc) : String :=
  match (flattenL doc).find? emailNodeP with
  | some (.text s) =>
    match emailFirstBlock s with
    | some m => pyStripCommas m
    | Option.none => ""
  | _ => ""

/-- The predicate with which `extract_phone` picks its label node:
a text node whose content matches `(^phone$|^telephone$|^telephone:$)`
case-insensitively. -/
def phoneNodeP : Node → Bool
  | .text s => labelMatch s
  | .elem .. => false

/-- `extract_phone(soup)` (scrape.py lines 90–109): find the label text
node; `format1` is its own text and `format2` is the text of
`phone.find_next()` — the next *tag* in document order.  When no tag
follows the label, `find_next()` is `None` and `None.get_text()` raises
`AttributeError`.  Return the first match of the phone pattern in
`format1 + format2`, else the empty string; empty string as well when
there is no label node. -/
def extract_phone (doc : Doc) : Except String String :=
  match findIdxFrom phoneNodeP (flattenL doc) 0 with
  | Option.none => .ok ""
  | some i =>
    match findIdxFrom isElem (flattenL doc) (i + 1) with
    | Option.none => .error "AttributeError"
    | some j =>
      match searchItems phoneItems
          ((match (flattenL doc).getD i (.text "") with
            | .text s => s
            | _ => "") ++ getTextN ((flattenL doc).getD j (.text ""))).toList with
      | some m => .ok m
      | Option.none => .ok ""

/-- The normalization applied by `extract_education` in both branches:
`.replace(',', '-').replace('\n', ' ').strip()`. -/
def eduNormalize (s : String) : String :=
  pyStrip (replaceChar '\n' ' ' (replaceChar ',' '-' s))

/-- The node matched by `soup.find('h2', string='Education')`: an `h2`
element whose `Tag.string` equals `"Education"` exactly. -/
def isEduH2 (n : Node) : Bool :=
  (tagOf n == some "h2") && (tagString n == some "Education")

/-- `extract_education(soup)` (scrape.py lines 112–129): find the
Education `h2`; `education.find_next()` is the next *tag* in document
order (raising `AttributeError` on `None.name` when no tag follows).
If that tag is a `ul`, return the normalized text of *its*
`find_next()` — again the next tag in document order, which descends
into the list — else the normalized text of the tag itself.  Empty
string when there is no Education `h2`. -/
def extract_education (doc : Doc) : Except String String :=
  match findIdxFrom isEduH2 (flattenL doc) 0 with
  | Option.none => .ok ""
  | some i =>
    match findIdxFrom isElem (flattenL doc) (i + 1) with
    | Option.none => .error "AttributeError"
    | some j =>
      if tagOf ((flattenL doc).getD j (.text "")) == some "ul" then
        match findIdxFrom isElem (flattenL doc) (j + 1) with
        | Option.none => .error "AttributeError"
        | some k => .ok (eduNormalize (getTextN ((flattenL doc).getD k (.text ""))))
      else .ok (eduNormalize (getTextN ((flattenL doc).getD j (.text ""))))

/-- The raw text `extract_education` extracts before normalization, in
whichever branch applies; `None` when no Education `h2` is found or the
extraction raises. -/
def eduExtractedText (doc : Doc) : Option String :=
  match findIdxFrom isEduH2 (flattenL doc) 0 with
  | Option.none => Option.none
  | some i =>
    match findIdxFrom isElem (flattenL doc) (i + 1) with
    | Option.none => Option.none
    | some j =>
      if tagOf ((flattenL doc).getD j (.text "")) == some "ul" then
        match findIdxFrom isElem (flattenL doc) (j + 1) with
        | Option.none => Option.none
        | some k => some (getTextN ((flattenL doc).getD k (.text "")))
      else some (getTextN ((flattenL doc).getD j (.text "")))

/-! ## Fetching, pipeline, orchestration -/

/-- Case-insensitive substring test; `re.search('/people/', href,
re.IGNORECASE)`. -/
def containsCI (hay needle : String) : Bool :=
  let h := (pyLower hay).toList
  let nd := (pyLower needle).toList
  (List.range (h.length + 1)).any fun i => (h.drop i).take nd.length == nd

/-- Prefix test on strings (kernel-computable `str.startswith`). -/
def strStarts (s pre : String) : Bool :=
  s.toList.take pre.toList.length == pre.toList

/-- Model of `urllib.parse.urljoin(base, url)` restricted to the inputs
arising here: an absolute `http(s)` URL is returned unchanged, a
root-relative reference replaces the path of the fixed base
`https://sjsu.edu/`, and any other reference is resolved against the
base directory (the base has no extra path segments and dot segments
are not modelled). -/
def urljoin (base url : String) : String :=
  if strStarts url "http://" || strStarts url "https://" then url
  else if strStarts url "/" then "https://sjsu.edu" ++ url
  else base ++ url

/-- `get_people_links(url)` (scrape.py lines 37–49): read the index
page; on failure return `None` (the function falls off its `if`).
Otherwise collect every anchor whose `href` contains `/people/`
case-insensitively and resolve it against `https://sjsu.edu/`. -/
def get_people_links (read_url : String → Option Doc) (url : String) :
    Option (List String) :=
  match read_url url with
  | Option.none => Option.none
  | some soup =>
    some ((flattenL soup).filterMap fun n =>
      if tagOf n == some "a" then
        match getAttr "href" n with
        | some h => if containsCI h "/people/" then some (urljoin "https://sjsu.edu/" h)
                    else Option.none
        | Option.none => Option.none
      else Option.none)

/-- `get_info(url)` (scrape.py lines 132–147): read the page; `None`
when the fetch failed.  If `extract_name` is truthy, build the
comma-joined row from the individually stripped fields (the f-string
evaluates email, then phone, then education; an exception raised by a
field extractor propagates).  Otherwise fall through to `None`. -/
def get_info (read_url : String → Option Doc) (url : String) :
    Except String (Option String) :=
  match read_url url with
  | Option.none => .ok Option.none
  | some soup =>
    match extract_name soup with
    | .pair last first =>
      match extract_phone soup, extract_education soup with
      | .ok ph, .ok ed =>
        .ok (some (pyStrip last ++ "," ++ pyStrip first ++ "," ++
          pyStrip (extract_email soup) ++ "," ++ pyStrip ph ++ "," ++ pyStrip ed))
      | .error e, _ => .error e
      | .ok _, .error e => .error e
    | _ => .ok Option.none

/-- The header line written by `harvest`, including its trailing space
and newline. -/
def csvHeader : String := "Last Name,First Name,Email,Phone Number,Education \n"

/-- Outcome of a `harvest` run: the strings written to the output file
in order, and the exception aborting the run, if any. -/
structure RunOutcome where
  lines : List String
  err : Option String
deriving DecidableEq

/-- The loop body of `harvest` over `people_links[1:]` (the script
iterates `range(1, len(people_links))`): write `f'{info}\n'` for every
link whose `get_info` is not `None`, stop when `get_info` raises. -/
def writeRows (read_url : String → Option Doc) : List String → List String × Option String
  | [] => ([], Option.none)
  | l :: rest =>
    match get_info read_url l with
    | .error e => ([], some e)
    | .ok Option.none => writeRows read_url rest
    | .ok (some info) =>
      let r := writeRows read_url rest
      ((info ++ "\n") :: r.1, r.2)

/-- `harvest(url, filename)` (scrape.py lines 180–195): collect the
people links, open the file and write the header, then the loop.  When
`get_people_links` returns `None` (failed index fetch), the header has
already been written and `range(1, len(people_links))` raises
`TypeError: object of type 'NoneType' has no len()`. -/
def harvest (read_url : String → Option Doc) (url : String) : RunOutcome :=
  match get_people_links read_url url with
  | Option.none => ⟨[csvHeader], some "TypeError"⟩
  | some links =>
    ⟨csvHeader :: (writeRows read_url (links.drop 1)).1,
      (writeRows read_url (links.drop 1)).2⟩

/-- Observable result of `main()`: lines printed to stdout, the content
written to the output file (`None` when the file is never opened),
whether any network request is attempted (the robots fetch of
`ok_to_crawl` counts), and a propagated exception if any. -/
structure MainResult where
  stdout : List String
  file : Option (List String)
  network : Bool
  err : Option String
deriving DecidableEq

namespace Scrape

/-- `main()` (scrape.py lines 198–209), with the robots verdict of
`ok_to_crawl` and the network abstracted as parameters: reject an
argument count other than 2 (script name plus one positional), then a
filename whose `splitext` extension is not `.csv`, both before any
network or file I/O; otherwise run the permission check and harvest. -/
def main (argv : List String) (robots_ok : Bool) (read_url : String → Option Doc) :
    MainResult :=
  match argv with
  | [_, filename] =>
    if splitextExt filename ≠ ".csv" then
      ⟨["Please specify a csv filename"], Option.none, false, Option.none⟩
    else if robots_ok then
      let r := harvest read_url "https://sjsu.edu/people/"
      ⟨[], some r.lines, true, r.err⟩
    else
      ⟨["This URL cannot be fetched!"], Option.none, true, Option.none⟩
  | _ =>
    ⟨["Error: invalid number of arguments", "Usage: scrape.py filename"],
      Option.none, false, Option.none⟩

end Scrape

/-! ## Spec-side definitions

The following definitions follow the *specification's words* where they
differ from (or refine) the code; they exist to state refutations and
refinement comparisons, and are never part of the code model. -/

/-- Spec reading for the email result: the matching substring "with any
trailing comma stripped" — trailing only. -/
def stripTrailingCommasOnly (s : String) : String :=
  String.mk ((s.toList.reverse.dropWhile (· = ',')).reverse)

/-- Spec reading for the comma branch of the Name Extractor: "the entire
text after the first comma". -/
def afterFirstComma (s : String) : String :=
  String.mk ((s.toList.dropWhile (· ≠ ',')).drop 1)

/-- The text before the first comma (shared by spec and code readings of
the last-name part). -/
def beforeFirstComma (s : String) : String :=
  String.mk (s.toList.takeWhile (· ≠ ','))

/-- The text strictly between the first and the second comma (all text
after the first comma when there is no second one): what
`split(',')[1]` actually yields. -/
def betweenFirstCommas (s : String) : String :=
  String.mk (((s.toList.dropWhile (· ≠ ',')).drop 1).takeWhile (· ≠ ','))

/-- First element of a node list together with the nodes after it. -/
def dropToElem : List Node → Option (Node × List Node)
  | [] => Option.none
  | n :: rest => if isElem n then some (n, rest) else dropToElem rest

mutual
/-- Spec reading of the Education Extractor's list branch on one node:
descend into its children. -/
def claimedEduN : Node → Option String
  | .text _ => Option.none
  | .elem _ _ cs => claimedEduL cs
/-- Spec reading of the Education Extractor's list branch ("extract the
text of that list's next sibling element"), for documents where the
Education heading, the list, and the element following the list are
siblings: in some children list, an Education `h2` is followed (next
element sibling) by a `ul`, and the result is the normalized text of
the `ul`'s next element sibling. -/
def claimedEduL : List Node → Option String
  | [] => Option.none
  | n :: rest =>
    if isEduH2 n then
      match dropToElem rest with
      | some (u, rest2) =>
        if tagOf u == some "ul" then
          match dropToElem rest2 with
          | some (x, _) => some (eduNormalize (getTextN x))
          | Option.none => Option.none
        else Option.none
      | Option.none => Option.none
    else
      match claimedEduN n with
      | some r => some r
      | Option.none => claimedEduL rest
end

/-- Spec reading of the phone separator: "space, hyphen, dot, slash". -/
def claimedSep (c : Char) : Bool :=
  c == ' ' || c == '-' || c == '.' || c == '/'

/-- Spec reading of the phone pattern after the optional parenthesized
area code: optional separator, 3 digits, optional separator, 4
digits. -/
def claimedPhoneTail : List RItem :=
  [.optc claimedSep, .digits 3, .optc claimedSep, .digits 4]

/-- Spec reading of the phone pattern at one start position: an optional
parenthesized 3-digit area code, then `claimedPhoneTail`; greedy with
backtracking like the real pattern. -/
def claimedPhoneMatchAt (cs : List Char) : Option (List Char) :=
  match cs with
  | '(' :: d1 :: d2 :: d3 :: ')' :: rest =>
    if [d1, d2, d3].all Char.isDigit then
      match matchItems claimedPhoneTail rest with
      | some m => some ('(' :: d1 :: d2 :: d3 :: ')' :: m)
      | Option.none => matchItems claimedPhoneTail cs
    else matchItems claimedPhoneTail cs
  | _ => matchItems claimedPhoneTail cs

/-- Leftmost search of the spec's phone pattern. -/
def claimedPhoneSearch : List Char → Option String
  | [] =>
    match claimedPhoneMatchAt [] with
    | some m => some (String.mk m)
    | Option.none => Option.none
  | c :: rest =>
    match claimedPhoneMatchAt (c :: rest) with
    | some m => some (String.mk m)
    | Option.none => claimedPhoneSearch rest

/-! ## Concrete documents and fetch oracles used by the theorems -/

/-- The fixed index URL of the script. -/
def idxUrl : String := "https://sjsu.edu/people/"

/-- A synthetic index page with two people links. -/
def idxDoc : Doc :=
  [ .elem "a" [("href", "/people/p1")] [.text "P1"],
    .elem "a" [("href", "/people/p2")] [.text "P2"] ]

/-- A profile page with a name, and a phone label with no tag after it
(the `find_next()` of the label is `None`). -/
def crashDoc : Doc :=
  [.elem "h1" [] [.text "Smith, Jane"], .elem "p" [] [.text "Phone"]]

/-- A well-behaved profile page: a name and nothing else. -/
def okDoc : Doc := [.elem "h1" [] [.text "Smith, Jane"]]

/-- A fetch oracle where the second profile page triggers the phone
extractor's `AttributeError`. -/
def fetchCrash : String → Option Doc := fun u =>
  if u = idxUrl then some idxDoc
  else if u = "https://sjsu.edu/people/p2" then some crashDoc
  else Option.none

/-- A fetch oracle where the first profile page fails to fetch and the
second succeeds with a clean page. -/
def fetchOk : String → Option Doc := fun u =>
  if u = idxUrl then some idxDoc
  else if u = "https://sjsu.edu/people/p2" then some okDoc
  else Option.none

/-- Education heading followed by a list with one item, then a
paragraph. -/
def eduUlDoc : Doc :=
  [ .elem "h2" [] [.text "Education"],
    .elem "ul" [] [.elem "li" [] [.text "MS CS"]],
    .elem "p" [] [.text "After 2005"] ]

/-- Education heading followed directly by a paragraph (the spec's own
example). -/
def eduPDoc : Doc :=
  [ .elem "h2" [] [.text "Education"],
    .elem "p" [] [.text "Ph.D., Stanford, 2005"] ]

/-- The row `harvest` writes for one link when the run does not raise:
`f'{info}\n'` when `get_info` returns a row, nothing otherwise. -/
def rowOption (read_url : String → Option Doc) (l : String) : Option String :=
  match get_info read_url l with
  | .ok (some info) => some (info ++ "\n")
  | _ => Option.none

/-! ## Helper lemmas -/

lemma getD_map_mk (l : List (List Char)) (i : Nat) :
    (l.map String.mk).getD i "" = String.mk (l.getD i []) := by
  induction l generalizing i with
  | nil => simp [List.getD]
  | cons x xs ih => cases i <;> simp [List.getD, ih]

lemma splitOnChar_ne_nil (c : Char) (cs : List Char) : splitOnChar c cs ≠ [] := by
  cases cs with
  | nil => simp [splitOnChar]
  | cons x rest =>
    simp only [splitOnChar]
    split
    · simp
    · split <;> simp

lemma splitOnChar_getD0 (c : Char) (cs : List Char) :
    (splitOnChar c cs).getD 0 [] = cs.takeWhile (· ≠ c) := by
  induction cs with
  | nil => rfl
  | cons x rest ih =>
    by_cases hx : x = c
    · subst hx
      simp [splitOnChar, List.takeWhile]
    · simp only [splitOnChar, if_neg hx]
      cases hs : splitOnChar c rest with
      | nil => exact absurd hs (splitOnChar_ne_nil c rest)
      | cons p ps =>
        rw [hs] at ih
        simp only [List.getD_cons_zero] at ih
        simp [List.takeWhile, hx, ih]

lemma splitOnChar_getD1 (c : Char) (cs : List Char) (h : cs.any (· == c) = true) :
    (splitOnChar c cs).getD 1 [] = ((cs.dropWhile (· ≠ c)).drop 1).takeWhile (· ≠ c) := by
  induction cs with
  | nil => simp at h
  | cons x rest ih =>
    by_cases hx : x = c
    · subst hx
      have hsp : splitOnChar x (x :: rest) = [] :: splitOnChar x rest := by
        simp [splitOnChar]
      rw [hsp, List.getD_cons_succ, splitOnChar_getD0]
      simp [List.dropWhile]
    · have hr : rest.any (· == c) = true := by
        simp only [List.any_cons] at h
        rcases Bool.or_eq_true_iff.mp h with h1 | h1
        · exact absurd (by simpa using h1) hx
        · exact h1
      simp only [splitOnChar, if_neg hx]
      cases hs : splitOnChar c rest with
      | nil => exact absurd hs (splitOnChar_ne_nil c rest)
      | cons p ps =>
        rw [hs] at ih
        simp only [List.getD_cons_succ] at ih ⊢
        rw [ih hr]
        simp [List.dropWhile, hx]

lemma extract_name_cons (d : Doc) (h : Node) (hs : List Node)
    (hh : (flattenL d).filter (fun n => tagOf n == some "h1") = h :: hs) :
    extract_name d =
      (if (pyStrip (getTextN h)).toList.any (· == ',') then
        .pair ((pySplitComma (pyStrip (getTextN h))).getD 0 "")
          ((pySplitComma (pyStrip (getTextN h))).getD 1 "")
      else if 1 < (pyWSTokens (pyStrip (getTextN h))).length then
        .pair ((pyWSTokens (pyStrip (getTextN h))).getLastD "")
          ((pyWSTokens (pyStrip (getTextN h))).getD 0 "")
      else .none) := by
  unfold extract_name
  rw [hh]

lemma writeRows_noerr (read_url : String → Option Doc) (ls : List String)
    (h : (writeRows read_url ls).2 = Option.none) :
    writeRows read_url ls = (ls.filterMap (rowOption read_url), Option.none) := by
  induction ls with
  | nil => rfl
  | cons l rest ih =>
    cases hg : get_info read_url l with
    | error e => simp [writeRows, hg] at h
    | ok o =>
      cases o with
      | none =>
        have h2 : (writeRows read_url rest).2 = Option.none := by
          simpa [writeRows, hg] using h
        simp [writeRows, hg, rowOption, ih h2]
      | some info =>
        have h2 : (writeRows read_url rest).2 = Option.none := by
          simpa [writeRows, hg] using h
        simp [writeRows, hg, rowOption, ih h2]

lemma writeRows_noerr_getinfo (read_url : String → Option Doc) (ls : List String)
    (h : (writeRows read_url ls).2 = Option.none) :
    ∀ l ∈ ls, ∀ e, get_info read_url l ≠ .error e := by
  induction ls with
  | nil => intro l hl; simp at hl
  | cons x rest ih =>
    intro l hl e
    cases hg : get_info read_url x with
    | error e2 => simp [writeRows, hg] at h
    | ok o =>
      have h2 : (writeRows read_url rest).2 = Option.none := by
        cases o <;> simpa [writeRows, hg] using h
      rcases List.mem_cons.mp hl with rfl | hl2
      · rw [hg]; simp
      · exact ih h2 l hl2 e

lemma getinfo_row_iff (read_url : String → Option Doc) (l : String)
    (hne : ∀ e, get_info read_url l ≠ .error e) :
    ((rowOption read_url l).isSome = true ↔
      ∃ soup, read_url l = some soup ∧ nameTruthy (extract_name soup) = true) := by
  unfold rowOption
  cases hr : read_url l with
  | none => simp [get_info, hr]
  | some soup =>
    cases hn : extract_name soup with
    | pair a b =>
      cases hp : extract_phone soup with
      | error e => exact absurd (by simp [get_info, hr, hn, hp]) (hne e)
      | ok ph =>
        cases hedu : extract_education soup with
        | error e => exact absurd (by simp [get_info, hr, hn, hp, hedu]) (hne e)
        | ok ed =>
          simp only [get_info, hr, hn, hp, hedu, Option.isSome_some, true_iff]
          exact ⟨soup, rfl, by simp [hn, nameTruthy]⟩
    | emptyStr =>
      simp [get_info, hr, hn, nameTruthy]
    | none =>
      simp [get_info, hr, hn, nameTruthy]

/-! ## Claim theorems -/

/-- C2: the claim says a transport error on *any* fetch — including the
fetch of the index page itself — is logged, treated as absence of data,
and the run completes normally.  The code contradicts it: when the
index fetch fails, `get_people_links` returns `None`, and `harvest`,
after opening the file and writing the header, evaluates
`len(people_links)` on `None` and raises `TypeError`.  This theorem
evaluates the model at that failing input. -/
theorem c2_index_fetch_fatal :
    get_people_links (fun _ => Option.none) idxUrl = Option.none ∧
    harvest (fun _ => Option.none) idxUrl = ⟨[csvHeader], some "TypeError"⟩ := by
  decide

/-- C9: invoking the CLI with an argument count other than one
positional argument, or with an output path whose `splitext` extension
is not `.csv`, prints a usage error to stdout and exits with no output
file created and no network traffic. -/
theorem c9_cli_guard (argv : List String) (robots_ok : Bool)
    (read_url : String → Option Doc)
    (h : argv.length ≠ 2 ∨ splitextExt (argv.getD 1 "") ≠ ".csv") :
    (Scrape.main argv robots_ok read_url).file = Option.none ∧
    (Scrape.main argv robots_ok read_url).network = false ∧
    ((Scrape.main argv robots_ok read_url).stdout =
        ["Error: invalid number of arguments", "Usage: scrape.py filename"] ∨
      (Scrape.main argv robots_ok read_url).stdout = ["Please specify a csv filename"]) := by
  match argv with
  | [] => simp [Scrape.main]
  | [a] => simp [Scrape.main]
  | a :: b :: c :: rest => simp [Scrape.main]
  | [a, f] =>
    have hf : splitextExt f ≠ ".csv" := by
      rcases h with h | h
      · simp at h
      · simpa using h
    simp [Scrape.main, hf]

/-- C9 witness: a concrete run with a non-`.csv` filename. -/
theorem c9_cli_guard_witness :
    (Scrape.main ["scrape.py", "out.txt"] true (fun _ => Option.none)).file = Option.none ∧
    (Scrape.main ["scrape.py", "out.txt"] true (fun _ => Option.none)).network = false ∧
    ((Scrape.main ["scrape.py", "out.txt"] true (fun _ => Option.none)).stdout =
        ["Error: invalid number of arguments", "Usage: scrape.py filename"] ∨
      (Scrape.main ["scrape.py", "out.txt"] true (fun _ => Option.none)).stdout =
        ["Please specify a csv filename"]) :=
  c9_cli_guard ["scrape.py", "out.txt"] true (fun _ => Option.none) (Or.inr (by decide))

/-- A profile page whose heading has two commas. -/
def nameJrDoc : Doc := [.elem "h1" [] [.text "Smith, Jane, Jr."]]

/-- C4 counterexample: the claim says the *entire* text after the first
comma becomes the first name, but `split(',')[1]` is only the text
between the first and second comma: on heading `"Smith, Jane, Jr."` the
code returns first name `" Jane"`, not `" Jane, Jr."`. -/
theorem c4_counterexample :
    extract_name nameJrDoc = .pair "Smith" " Jane" ∧
    afterFirstComma "Smith, Jane, Jr." = " Jane, Jr." ∧
    NameRes.pair "Smith" " Jane" ≠ NameRes.pair "Smith" " Jane, Jr." := by
  decide

/-- C4 amended: for every profile document whose first `h1` has trimmed
text containing a comma, the Name Extractor returns the text before the
first comma as last name and the text *between the first and second
comma* (the entire text after the first comma only when there is no
second comma) as first name, neither part further trimmed at split
time. -/
theorem c4_amended (d : Doc) (h : Node) (hs : List Node) (nm : String)
    (hh : (flattenL d).filter (fun n => tagOf n == some "h1") = h :: hs)
    (hnm : nm = pyStrip (getTextN h))
    (hc : nm.toList.any (· == ',') = true) :
    extract_name d = .pair (beforeFirstComma nm) (betweenFirstCommas nm) := by
  subst hnm
  rw [extract_name_cons d h hs hh, if_pos hc]
  have e0 : (pySplitComma (pyStrip (getTextN h))).getD 0 ""
      = beforeFirstComma (pyStrip (getTextN h)) := by
    unfold pySplitComma beforeFirstComma
    rw [getD_map_mk, splitOnChar_getD0]
  have e1 : (pySplitComma (pyStrip (getTextN h))).getD 1 ""
      = betweenFirstCommas (pyStrip (getTextN h)) := by
    unfold pySplitComma betweenFirstCommas
    rw [getD_map_mk, splitOnChar_getD1 _ _ hc]
  rw [e0, e1]

/-- C4 witness: the amended theorem applied to the two-comma heading. -/
theorem c4_amended_witness :
    extract_name nameJrDoc
      = .pair (beforeFirstComma "Smith, Jane, Jr.") (betweenFirstCommas "Smith, Jane, Jr.") :=
  c4_amended nameJrDoc (.elem "h1" [] [.text "Smith, Jane, Jr."]) [] "Smith, Jane, Jr."
    rfl rfl (by decide)

/-- C5: for a first `h1` whose trimmed text has no comma and more than
one whitespace token, the Name Extractor returns the last token as last
name and the first token as first name; with no `h1` at all it returns
the empty-string sentinel. -/
theorem c5_name_tokens :
    (∀ (d : Doc) (h : Node) (hs : List Node) (nm : String),
      (flattenL d).filter (fun n => tagOf n == some "h1") = h :: hs →
      nm = pyStrip (getTextN h) →
      nm.toList.any (· == ',') = false →
      1 < (pyWSTokens nm).length →
      extract_name d = .pair ((pyWSTokens nm).getLastD "") ((pyWSTokens nm).getD 0 "")) ∧
    (∀ d : Doc, (flattenL d).filter (fun n => tagOf n == some "h1") = [] →
      extract_name d = .emptyStr) := by
  constructor
  · intro d h hs nm hh hnm hc ht
    subst hnm
    rw [extract_name_cons d h hs hh, if_neg (by rw [hc]; decide), if_pos ht]
  · intro d hd
    unfold extract_name
    rw [hd]

/-- C5 witness: heading `"Jane Middle Smith"` (middle token dropped) and
a document with no `h1`. -/
theorem c5_name_tokens_witness :
    extract_name [.elem "h1" [] [.text "Jane Middle Smith"]]
      = .pair ((pyWSTokens "Jane Middle Smith").getLastD "")
          ((pyWSTokens "Jane Middle Smith").getD 0 "") ∧
    extract_name ([] : Doc) = .emptyStr :=
  ⟨c5_name_tokens.1 [.elem "h1" [] [.text "Jane Middle Smith"]]
      (.elem "h1" [] [.text "Jane Middle Smith"]) [] "Jane Middle Smith"
      rfl rfl (by decide) (by decide),
    c5_name_tokens.2 [] rfl⟩

/-- A profile page whose heading is a single token. -/
def singleTokenDoc : Doc := [.elem "h1" [] [.text "Cher"]]

/-- C10: a first `h1` whose trimmed text is a single comma-free token
makes the Name Extractor fall through to Python `None`, a sentinel
distinct from the `""` returned when no `h1` exists; both are falsy, so
`get_info` yields no record and the harvest loop writes no row for such
a page. -/
theorem c10_name_sentinels :
    (∀ (d : Doc) (h : Node) (hs : List Node) (nm : String),
      (flattenL d).filter (fun n => tagOf n == some "h1") = h :: hs →
      nm = pyStrip (getTextN h) →
      nm.toList.any (· == ',') = false →
      (pyWSTokens nm).length = 1 →
      extract_name d = NameRes.none) ∧
    (∀ d : Doc, (flattenL d).filter (fun n => tagOf n == some "h1") = [] →
      extract_name d = NameRes.emptyStr) ∧
    NameRes.none ≠ NameRes.emptyStr ∧
    nameTruthy NameRes.none = false ∧
    nameTruthy NameRes.emptyStr = false ∧
    (∀ (read_url : String → Option Doc) (url : String) (soup : Doc),
      read_url url = some soup → nameTruthy (extract_name soup) = false →
      get_info read_url url = .ok Option.none) ∧
    (∀ (read_url : String → Option Doc) (l : String) (rest : List String),
      get_info read_url l = .ok Option.none →
      writeRows read_url (l :: rest) = writeRows read_url rest) := by
  refine ⟨?_, ?_, by decide, rfl, rfl, ?_, ?_⟩
  · intro d h hs nm hh hnm hc ht
    subst hnm
    rw [extract_name_cons d h hs hh, if_neg (by rw [hc]; decide),
      if_neg (by rw [ht]; exact lt_irrefl 1)]
  · intro d hd
    unfold extract_name
    rw [hd]
  · intro read_url url soup hr hfalsy
    unfold get_info
    rw [hr]
    cases hn : extract_name soup with
    | pair a b => rw [hn] at hfalsy; simp [nameTruthy] at hfalsy
    | emptyStr => simp [hn]
    | none => simp [hn]
  · intro read_url l rest hg
    simp only [writeRows, hg]

/-- C10 witness: the single-token heading `"Cher"`. -/
theorem c10_name_sentinels_witness :
    extract_name singleTokenDoc = NameRes.none ∧
    get_info (fun _ => some singleTokenDoc) "u" = .ok Option.none ∧
    writeRows (fun _ => some singleTokenDoc) ["u"]
      = writeRows (fun _ => some singleTokenDoc) [] :=
  ⟨c10_name_sentinels.1 singleTokenDoc (.elem "h1" [] [.text "Cher"]) [] "Cher"
      rfl rfl (by decide) (by decide),
    c10_name_sentinels.2.2.2.2.2.1 (fun _ => some singleTokenDoc) "u" singleTokenDoc
      rfl (by decide),
    c10_name_sentinels.2.2.2.2.2.2 (fun _ => some singleTokenDoc) "u" [] (by decide)⟩

/-- A document whose first email-shaped substring has a leading
comma. -/
def emailLeadDoc : Doc := [.elem "p" [] [.text "mail ,a@b.c here"]]

/-- C6 counterexample: the claim says only a *trailing* comma is
stripped from the matching substring, but Python `strip(",")` removes
commas from both ends: on the node text `"mail ,a@b.c here"` the
matching substring is `",a@b.c"`, which the claim leaves unchanged,
while the code returns `"a@b.c"`. -/
theorem c6_counterexample :
    emailFirstBlock "mail ,a@b.c here" = some ",a@b.c" ∧
    stripTrailingCommasOnly ",a@b.c" = ",a@b.c" ∧
    extract_email emailLeadDoc = "a@b.c" ∧
    ("a@b.c" : String) ≠ ",a@b.c" := by
  decide

/-- C6 amended: the Email Extractor finds the first text node matching
the loose email shape, returns the precise matching substring with
*leading and trailing* commas stripped, and returns the empty string
when no text node in the document matches. -/
theorem c6_amended :
    (∀ (d : Doc) (s : String),
      (flattenL d).find? emailNodeP = some (.text s) →
      extract_email d = pyStripCommas ((emailFirstBlock s).getD "")) ∧
    (∀ d : Doc, (flattenL d).find? emailNodeP = Option.none → extract_email d = "") := by
  constructor
  · intro d s hf
    have hsome : (emailFirstBlock s).isSome := by
      have hp := List.find?_some hf
      simpa [emailNodeP] using hp
    unfold extract_email
    simp only [hf]
    cases he : emailFirstBlock s with
    | none => rw [he] at hsome; simp at hsome
    | some m => simp only [he, Option.getD_some]
  · intro d hf
    unfold extract_email
    rw [hf]

/-- C6 witness: the spec's own example text, and a document with no
email-shaped text. -/
theorem c6_amended_witness :
    extract_email [.elem "p" [] [.text "Contact: jdoe@example.edu, office hours"]]
      = pyStripCommas ((emailFirstBlock "Contact: jdoe@example.edu, office hours").getD "") ∧
    extract_email [.elem "p" [] [.text "no address here"]] = "" :=
  ⟨c6_amended.1 [.elem "p" [] [.text "Contact: jdoe@example.edu, office hours"]]
      "Contact: jdoe@example.edu, office hours" rfl,
    c6_amended.2 [.elem "p" [] [.text "no address here"]] rfl⟩

/-- C8: whatever text the Education Extractor extracts (in the list or
non-list branch), the returned value is that text with every comma
replaced by a hyphen and every newline replaced by a single space, then
trimmed; and on `<h2>Education</h2>` followed directly by a paragraph
`"Ph.D., Stanford, 2005"` it returns `"Ph.D.- Stanford- 2005"`. -/
theorem c8_edu_normalization :
    (∀ (d : Doc) (t : String), eduExtractedText d = some t →
      extract_education d = .ok (pyStrip (replaceChar '\n' ' ' (replaceChar ',' '-' t)))) ∧
    extract_education eduPDoc = .ok "Ph.D.- Stanford- 2005" := by
  constructor
  · intro d t h
    unfold eduExtractedText at h
    unfold extract_education eduNormalize
    cases h1 : findIdxFrom isEduH2 (flattenL d) 0 with
    | none => simp [h1] at h
    | some i =>
      simp only [h1] at h ⊢
      cases h2 : findIdxFrom isElem (flattenL d) (i + 1) with
      | none => simp [h2] at h
      | some j =>
        simp only [h2] at h ⊢
        by_cases hu : (tagOf ((flattenL d).getD j (.text "")) == some "ul") = true
        · simp only [if_pos hu] at h ⊢
          cases h3 : findIdxFrom isElem (flattenL d) (j + 1) with
          | none => simp [h3] at h
          | some k =>
            simp only [h3, Option.some_inj] at h ⊢
            rw [h]
        · simp only [if_neg hu, Option.some_inj] at h ⊢
          rw [h]
  · decide

/-- C8 witness: the first conjunct applied to the list-branch document,
whose raw extracted text is the first list item. -/
theorem c8_edu_normalization_witness :
    extract_education eduUlDoc
      = .ok (pyStrip (replaceChar '\n' ' ' (replaceChar ',' '-' "MS CS"))) :=
  c8_edu_normalization.1 eduUlDoc "MS CS" rfl

/-- A document with an exact `"Phone"` label followed by a `'+'`
separated number. -/
def phonePlusDoc : Doc :=
  [.elem "p" [] [.text "Phone"], .elem "b" [] [.text "(408)+924-1000"]]

/-- C7 counterexample: the claim describes the separator class as
space/hyphen/dot/slash, but the pattern's `[ -.]` is the ASCII range
32–46, which also matches `'+'` (and `!"#$%&'()*,` …): with label node
`"Phone"` and next text `"(408)+924-1000"`, the claimed pattern's first
match is `"924-1000"`, while the code returns `"(408)+924-1000"`. -/
theorem c7_counterexample :
    extract_phone phonePlusDoc = .ok "(408)+924-1000" ∧
    claimedPhoneSearch ("Phone(408)+924-1000".toList) = some "924-1000" ∧
    (Except.ok "(408)+924-1000" : Except String String) ≠ Except.ok "924-1000" := by
  decide

/-- C7 amended: the Phone Extractor looks for a text node matching
`(^phone$|^telephone$|^telephone:$)` case-insensitively (so the node
equals one of the labels, possibly with one trailing newline); if none
exists it returns the empty string.  If one is found, it concatenates
that node's text with the text of the next *tag* in document order —
raising `AttributeError` when no tag follows — and returns the first
substring matching `\(?\d{3}\)?[ -.]?\/?\d{3}[ ]?[ -.]?[ ]?\d{4}`
(where `[ -.]` is the ASCII range from space to dot), or the empty
string when nothing matches. -/
theorem c7_amended :
    (∀ d : Doc, findIdxFrom phoneNodeP (flattenL d) 0 = Option.none →
      extract_phone d = .ok "") ∧
    (∀ (d : Doc) (i : Nat) (s : String) (j : Nat),
      findIdxFrom phoneNodeP (flattenL d) 0 = some i →
      (flattenL d).getD i (.text "") = .text s →
      findIdxFrom isElem (flattenL d) (i + 1) = some j →
      extract_phone d =
        .ok ((searchItems phoneItems
          (s ++ getTextN ((flattenL d).getD j (.text ""))).toList).getD "")) ∧
    (∀ (d : Doc) (i : Nat),
      findIdxFrom phoneNodeP (flattenL d) 0 = some i →
      findIdxFrom isElem (flattenL d) (i + 1) = Option.none →
      extract_phone d = .error "AttributeError") := by
  refine ⟨?_, ?_, ?_⟩
  · intro d hnone
    unfold extract_phone
    rw [hnone]
  · intro d i s j hi hs hj
    unfold extract_phone
    simp only [hi, hs, hj]
    cases hm : searchItems phoneItems (s ++ getTextN ((flattenL d).getD j (.text ""))).toList with
    | none => simp only [hm, Option.getD_none]
    | some m => simp only [hm, Option.getD_some]
  · intro d i hi hnone
    unfold extract_phone
    simp only [hi, hnone]

/-- A document with a `"Phone"` label followed by a well-formed
number. -/
def phoneDoc : Doc :=
  [.elem "p" [] [.text "Phone"], .elem "b" [] [.text "(408) 924-1000"]]

/-- C7 witness: the amended theorem's main branch on the spec's own
example. -/
theorem c7_amended_witness :
    extract_phone phoneDoc
      = .ok ((searchItems phoneItems
          ("Phone" ++ getTextN ((flattenL phoneDoc).getD 2 (.text ""))).toList).getD "") :=
  c7_amended.2.1 phoneDoc 1 "Phone" 2 rfl rfl rfl

/-- C3 counterexample: the claim says the list branch returns the text
of the element *following* the list (skipping the list's items), but
`ul.find_next()` is the next tag in document order, i.e. it descends
into the list: on a heading followed by `<ul><li>MS CS</li></ul>` and
then `<p>After 2005</p>`, the spec reading gives `"After 2005"` while
the code returns `"MS CS"`, the first item's text. -/
theorem c3_counterexample :
    extract_education eduUlDoc = .ok "MS CS" ∧
    claimedEduL eduUlDoc = some "After 2005" ∧
    (Except.ok "MS CS" : Except String String) ≠ Except.ok "After 2005" := by
  decide

/-- C3 amended: when the Education heading's next tag in document order
is an unordered list, the extractor returns the normalized text of the
next tag in document order *after the list's own position* — for a list
with element children this is its first item, not the element following
the list — and raises `AttributeError` when no tag at all follows the
list. -/
theorem c3_amended (d : Doc) (i j : Nat)
    (hi : findIdxFrom isEduH2 (flattenL d) 0 = some i)
    (hj : findIdxFrom isElem (flattenL d) (i + 1) = some j)
    (hul : (tagOf ((flattenL d).getD j (.text "")) == some "ul") = true) :
    extract_education d =
      (match findIdxFrom isElem (flattenL d) (j + 1) with
        | some k => .ok (eduNormalize (getTextN ((flattenL d).getD k (.text ""))))
        | Option.none => .error "AttributeError") := by
  unfold extract_education
  simp only [hi, hj, if_pos hul]
  cases findIdxFrom isElem (flattenL d) (j + 1) <;> rfl

/-- C3 witness: the amended theorem applied to the list document. -/
theorem c3_amended_witness :
    extract_education eduUlDoc =
      (match findIdxFrom isElem (flattenL eduUlDoc) (2 + 1) with
        | some k => .ok (eduNormalize (getTextN ((flattenL eduUlDoc).getD k (.text ""))))
        | Option.none => .error "AttributeError") :=
  c3_amended eduUlDoc 0 2 rfl rfl rfl

/-- C1 counterexample: on a collected list of two links whose second
page is fetched and yields a name, the run writes no data row at all
and aborts with `AttributeError` (the page's phone label has no
following tag), refuting "a data row is written iff the page was
fetched and a name was found … no error record". -/
theorem c1_counterexample :
    get_people_links fetchCrash idxUrl
      = some ["https://sjsu.edu/people/p1", "https://sjsu.edu/people/p2"] ∧
    fetchCrash "https://sjsu.edu/people/p2" = some crashDoc ∧
    nameTruthy (extract_name crashDoc) = true ∧
    harvest fetchCrash idxUrl = ⟨[csvHeader], some "AttributeError"⟩ :=
  ⟨by decide, rfl, by decide, by decide⟩

/-- C1 amended: on a collected link list of length `N`, provided no
field extractor raises on a processed page, the Harvester writes the
header and then at most `N - 1` data rows, skips the first collected
link unconditionally, and writes a data row for a remaining link iff
that link's page was fetched and the Name Extractor found a name
(pages that fail to fetch or yield no name produce no row and no error
record); when an extractor raises, the run aborts after the rows
written so far. -/
theorem c1_amended (read_url : String → Option Doc) (url : String) (links : List String)
    (hl : get_people_links read_url url = some links)
    (hnoerr : (writeRows read_url (links.drop 1)).2 = Option.none) :
    harvest read_url url
      = ⟨csvHeader :: (links.drop 1).filterMap (rowOption read_url), Option.none⟩ ∧
    ((links.drop 1).filterMap (rowOption read_url)).length ≤ links.length - 1 ∧
    (∀ l ∈ links.drop 1,
      ((rowOption read_url l).isSome = true ↔
        ∃ soup, read_url l = some soup ∧ nameTruthy (extract_name soup) = true)) := by
  refine ⟨?_, ?_, ?_⟩
  · unfold harvest
    simp only [hl]
    rw [writeRows_noerr read_url (links.drop 1) hnoerr]
  · calc ((links.drop 1).filterMap (rowOption read_url)).length
        ≤ (links.drop 1).length := List.length_filterMap_le _ _
      _ = links.length - 1 := by simp
  · intro l hmem
    exact getinfo_row_iff read_url l (writeRows_noerr_getinfo read_url _ hnoerr l hmem)

/-- C1 witness: a two-link run where the first profile fetch fails and
the second yields a clean page with a name. -/
theorem c1_amended_witness :
    harvest fetchOk idxUrl = ⟨[csvHeader, "Smith,Jane,,,\n"], Option.none⟩ := by
  have h := (c1_amended fetchOk idxUrl
      ["https://sjsu.edu/people/p1", "https://sjsu.edu/people/p2"]
      (by decide) (by decide)).1
  exact h.trans (by decide)

